import Mathlib

/-!
Verification of the cyvault request-context, tenant-scoping repository and
error-normalization layer, shallowly embedded from the TypeScript source.

Conventions of the embedding:
* JavaScript promises that resolve are `Except.ok`, promises that reject
  (thrown errors) are `Except.error`.
* `AsyncLocalStorage` stores are explicit: every context-reading function
  takes the currently active store as an `Option RequestContextStore`
  parameter; `AsyncLocalStorage.run` is modelled as state save/restore.
* Machine timestamps (`Date.now()`, `new Date()`) and generated request ids
  (`crypto.randomUUID()`) are passed in as explicit parameters; `Date`
  values are epoch milliseconds as `Nat`. The `timestamp` and `stack`
  fields of errors depend only on these environment inputs and are omitted
  from the error model (no claim inspects them).
* The Postgres store behind drizzle is a `List VaultRow`; executing a
  select filters, sorts and paginates that list; update/delete map over it.
-/

namespace Cyvault

/-- Apostrophe, used when assembling messages that quote an identifier. -/
def squote : String := "\x27"

/-- Character-list substring test: does `pat` occur contiguously in the
second argument. -/
def charsContain (pat : List Char) : List Char → Bool
  | [] => pat.isEmpty
  | c :: t => pat.isPrefixOf (c :: t) || charsContain pat t

/-- JavaScript `haystack.includes(needle)` on strings (case-sensitive
substring test). -/
def strContains (s pat : String) : Bool :=
  charsContain pat.toList s.toList

/-- JavaScript string truthiness on an optional value: a present but empty
string is falsy. Used wherever the source guards with `if (value)` before
storing an optional string. -/
def truthyOpt (v : Option String) : Option String :=
  match v with
  | some s => if s = "" then none else some s
  | none => none

/-! ## JSON-like values (for error `details` payloads)

`Record<string, unknown>` values are association lists preserving insertion
order, matching JavaScript object key order for string keys. -/

inductive JVal where
  | str (s : String)
  | num (n : Int)
  | jbool (b : Bool)
  | null
  | arr (elems : List JVal)
  | obj (fields : List (String × JVal))

abbrev Details := List (String × JVal)

/-! ## Error codes and status mapping (src/types errors module) -/

inductive ErrorCode where
  | INTERNAL_ERROR
  | VALIDATION_ERROR
  | NOT_FOUND
  | UNAUTHORIZED
  | FORBIDDEN
  | CONFLICT
  | BAD_REQUEST
  | DATABASE_ERROR
  | DATABASE_CONNECTION_ERROR
  | DATABASE_QUERY_ERROR
  | DATABASE_CONSTRAINT_ERROR
  | USER_NOT_FOUND
  | USER_ALREADY_EXISTS
  | USER_INVALID_CREDENTIALS
  | USER_ACCOUNT_DISABLED
  | TENANT_NOT_FOUND
  | TENANT_ALREADY_EXISTS
  | TENANT_ACCESS_DENIED
  | TOKEN_EXPIRED
  | TOKEN_INVALID
  | INSUFFICIENT_PERMISSIONS
deriving DecidableEq, Repr

/-- The `STATUS_CODES` table: error code to wire-level HTTP status. -/
def STATUS_CODES : ErrorCode → Nat
  | .INTERNAL_ERROR => 500
  | .VALIDATION_ERROR => 400
  | .NOT_FOUND => 404
  | .UNAUTHORIZED => 401
  | .FORBIDDEN => 403
  | .CONFLICT => 409
  | .BAD_REQUEST => 400
  | .DATABASE_ERROR => 500
  | .DATABASE_CONNECTION_ERROR => 503
  | .DATABASE_QUERY_ERROR => 500
  | .DATABASE_CONSTRAINT_ERROR => 409
  | .USER_NOT_FOUND => 404
  | .USER_ALREADY_EXISTS => 409
  | .USER_INVALID_CREDENTIALS => 401
  | .USER_ACCOUNT_DISABLED => 403
  | .TENANT_NOT_FOUND => 404
  | .TENANT_ALREADY_EXISTS => 409
  | .TENANT_ACCESS_DENIED => 403
  | .TOKEN_EXPIRED => 401
  | .TOKEN_INVALID => 401
  | .INSUFFICIENT_PERMISSIONS => 403

/-- The `CustomError` class (fields relevant to behavior; `timestamp` and
`stack` are environment-dependent and omitted, see the module comment). -/
structure CustomError where
  code : ErrorCode
  statusCode : Nat
  displayMessage : String
  internalError : Option String
  details : Option Details

/-- The fluent `ErrorBuilder`. `cause` only contributes to the stack trace
of the built error, so only its message is retained. -/
structure ErrorBuilder where
  code : ErrorCode
  displayMessage : String
  internalError : Option String
  details : Option Details
  causeMessage : Option String

def ErrorBuilder.new (code : ErrorCode) (message : String) : ErrorBuilder :=
  { code := code, displayMessage := message, internalError := none,
    details := none, causeMessage := none }

def ErrorBuilder.withMessage (b : ErrorBuilder) (message : String) : ErrorBuilder :=
  { b with internalError := some message }

def ErrorBuilder.withHint (b : ErrorBuilder) (hint : String) : ErrorBuilder :=
  { b with displayMessage := hint }

/-- JavaScript object spread merge `{ ...a, ...b }`: keys of `a` keep their
position (values overridden by `b` where present), then keys of `b` not in
`a` are appended in order. -/
def detailsMerge (a b : Details) : Details :=
  (a.map (fun kv =>
    match b.find? (fun kv2 => kv2.1 == kv.1) with
    | some kv2 => (kv.1, kv2.2)
    | none => kv))
  ++ b.filter (fun kv2 => !(a.any (fun kv => kv.1 == kv2.1)))

def ErrorBuilder.withDetails (b : ErrorBuilder) (d : Details) : ErrorBuilder :=
  { b with details := some (detailsMerge (b.details.getD []) d) }

def ErrorBuilder.withCode (b : ErrorBuilder) (code : ErrorCode) : ErrorBuilder :=
  { b with code := code }

def ErrorBuilder.withCause (b : ErrorBuilder) (causeMessage : String) : ErrorBuilder :=
  { b with causeMessage := some causeMessage }

/-- `ErrorBuilder.wrap(error)`: a builder for a generic wrapped `Error`. -/
def ErrorBuilder.wrap (errorMessage : String) : ErrorBuilder :=
  (ErrorBuilder.new .INTERNAL_ERROR errorMessage).withCause errorMessage

/-- `build()`: the status code is looked up from `STATUS_CODES`; the cause
only extends the stack trace and does not appear in the built error. -/
def ErrorBuilder.build (b : ErrorBuilder) : CustomError :=
  { code := b.code, statusCode := STATUS_CODES b.code,
    displayMessage := b.displayMessage, internalError := b.internalError,
    details := b.details }

/-! The `Err` factory. The source gives `unauthorized`, `forbidden`,
`database` and `internal` default messages; callers in scope here always
pass the message explicitly, so it is an ordinary parameter. -/

def Err.validation (message : String) (details : Option Details) : ErrorBuilder :=
  (ErrorBuilder.new .VALIDATION_ERROR message).withDetails (details.getD [])

def Err.notFound (resource : String) (id : Option String) : ErrorBuilder :=
  ErrorBuilder.new .NOT_FOUND
    (match id with
     | some i => resource ++ " " ++ squote ++ i ++ squote ++ " not found"
     | none => resource ++ " not found")

def Err.unauthorized (message : String) : ErrorBuilder :=
  ErrorBuilder.new .UNAUTHORIZED message

def Err.forbidden (message : String) : ErrorBuilder :=
  ErrorBuilder.new .FORBIDDEN message

def Err.conflict (message : String) (details : Option Details) : ErrorBuilder :=
  (ErrorBuilder.new .CONFLICT message).withDetails (details.getD [])

def Err.database (message : String) (cause : Option String) : ErrorBuilder :=
  (ErrorBuilder.new .DATABASE_ERROR message).withCause (cause.getD message)

def Err.internal (message : String) (cause : Option String) : ErrorBuilder :=
  (ErrorBuilder.new .INTERNAL_ERROR message).withCause (cause.getD message)

/-- A thrown JavaScript value as seen by the repository layer: either an
`AppError` built through the builder, or a plain `Error` (driver failures,
`new Error(...)` from validation). -/
inductive JsThrow where
  | app (e : CustomError)
  | jsError (message : String)

/-- The `message` property of a thrown value (a `CustomError` passes its
display message to the `Error` constructor). -/
def throwMessage : JsThrow → String
  | .app e => e.displayMessage
  | .jsError m => m

/-- `toAppError`: an `AppError` passes through; any other `Error` is
wrapped via `ErrorBuilder.wrap` into an `INTERNAL_ERROR`. -/
def toAppError : JsThrow → CustomError
  | .app e => e
  | .jsError m => (ErrorBuilder.wrap m).build

/-- `withErrorHandling(fn)`: awaits the body and re-throws any failure
normalized through `toAppError`. Note it throws the `AppError`; it does
not convert the failure into a returned value. -/
def withErrorHandling {α : Type} (fn : Except JsThrow α) : Except CustomError α :=
  match fn with
  | .ok a => .ok a
  | .error e => .error (toAppError e)

/-- A `try { body } catch (e) { throw handler(e) }` block. -/
def tryCatch {α : Type} (body : Except JsThrow α) (handler : JsThrow → JsThrow) :
    Except JsThrow α :=
  match body with
  | .ok a => .ok a
  | .error e => .error (handler e)

/-! ## Request context store (src/core/context/context.ts)

`RequestContextStore` carries request metadata plus the optional identity
keys named by `UserHeaders` (`x-user-id`, `x-user-email`, `x-tenant-id`).
An optional field being `none` models the key being absent from the store
object; `some ""` models a present key holding an empty string (falsy). -/

structure RequestContextStore where
  requestId : String
  requestPath : String
  requestMethod : String
  requestStartTime : Nat
  userId : Option String
  userEmail : Option String
  tenantId : Option String
deriving DecidableEq, Repr

/-- Errors thrown by the context store: `NoContextError` and
`ContextKeyError` (the latter records the missing key). -/
inductive ContextError where
  | noContext (message : String)
  | contextKey (key : String)
deriving DecidableEq, Repr

/-- The `AsyncLocalStorage` store currently bound to the running
asynchronous execution tree: `none` when no context is active. -/
abbrev ContextState := Option RequestContextStore

/-- `RequestContext.getContext()`: the active store, or a thrown
`NoContextError` with its default message. -/
def RequestContext.getContext (st : ContextState) :
    Except ContextError RequestContextStore :=
  match st with
  | none => .error (.noContext "No context available")
  | some c => .ok c

/-- `RequestContext.hasContext()`. -/
def RequestContext.hasContext (st : ContextState) : Bool :=
  st.isSome

/-- `RequestContext.get(key)` specialised to the optional string-valued
keys: `getContext()` first (throws `NoContextError` when absent), then a
`ContextKeyError` when the key is not in the store. -/
def RequestContext.getKey (st : ContextState) (key : String)
    (field : RequestContextStore → Option String) : Except ContextError String :=
  match st with
  | none => .error (.noContext "No context available")
  | some c =>
    match field c with
    | none => .error (.contextKey key)
    | some v => .ok v

/-- `RequestContext.tryGet(key)` specialised likewise: `context?.[key]`,
never throwing. -/
def RequestContext.tryGetKey (st : ContextState)
    (field : RequestContextStore → Option String) : Option String :=
  st.bind field

/-- `RequestContext.getUserId()`: strict getter; a missing or falsy value
raises `NoContextError("User ID not found in context")`. -/
def RequestContext.getUserId (st : ContextState) : Except ContextError String :=
  match RequestContext.getKey st "x-user-id" (fun c => c.userId) with
  | .error e => .error e
  | .ok v => if v = "" then .error (.noContext "User ID not found in context") else .ok v

/-- `RequestContext.tryGetUserId()`. -/
def RequestContext.tryGetUserId (st : ContextState) : Option String :=
  RequestContext.tryGetKey st (fun c => c.userId)

/-- `RequestContext.getUserEmail()`. -/
def RequestContext.getUserEmail (st : ContextState) : Except ContextError String :=
  match RequestContext.getKey st "x-user-email" (fun c => c.userEmail) with
  | .error e => .error e
  | .ok v => if v = "" then .error (.noContext "User email not found in context") else .ok v

/-- `RequestContext.tryGetUserEmail()`. -/
def RequestContext.tryGetUserEmail (st : ContextState) : Option String :=
  RequestContext.tryGetKey st (fun c => c.userEmail)

/-- `RequestContext.getTenantId()`. -/
def RequestContext.getTenantId (st : ContextState) : Except ContextError String :=
  match RequestContext.getKey st "x-tenant-id" (fun c => c.tenantId) with
  | .error e => .error e
  | .ok v => if v = "" then .error (.noContext "Tenant ID not found in context") else .ok v

/-- `RequestContext.tryGetTenantId()`. -/
def RequestContext.tryGetTenantId (st : ContextState) : Option String :=
  RequestContext.tryGetKey st (fun c => c.tenantId)

/-- `RequestContext.run(store, fn)`, the embedding of
`AsyncLocalStorage.run`: the body executes with `store` active, and the
previously active store (possibly none) is active again once `run`
returns. The pair is (body result, context active after the call). -/
def RequestContext.run {α : Type} (store : RequestContextStore)
    (body : ContextState → α) (st : ContextState) : α × ContextState :=
  (body (some store), st)

/-- An inbound request as the context layer sees it: pathname, method and
the three identity headers (a `none` header is absent / `null`). -/
structure ReqInfo where
  path : String
  method : String
  userIdHeader : Option String
  userEmailHeader : Option String
  tenantIdHeader : Option String
deriving DecidableEq, Repr

/-- The store built by `RequestContext.fromRequest`: fresh request id and
start time, identity keys copied from headers only when truthy. -/
def RequestContext.fromRequestStore (req : ReqInfo) (uuid : String) (now : Nat) :
    RequestContextStore :=
  { requestId := uuid, requestPath := req.path, requestMethod := req.method,
    requestStartTime := now,
    userId := truthyOpt req.userIdHeader,
    userEmail := truthyOpt req.userEmailHeader,
    tenantId := truthyOpt req.tenantIdHeader }

/-- `RequestContext.fromRequest(req, fn)`: build the store from the
request and `run` the body inside it. -/
def RequestContext.fromRequest {α : Type} (req : ReqInfo) (uuid : String) (now : Nat)
    (fn : ContextState → α) (st : ContextState) : α × ContextState :=
  RequestContext.run (RequestContext.fromRequestStore req uuid now) fn st

/-! ## Middleware boundary (src/core/middleware/middleware.ts) -/

/-- An authenticated user as returned by the auth provider; tenant ids may
live in `user_metadata.tenant_id` or `app_metadata.tenant_id`. -/
structure AuthUser where
  id : String
  email : Option String
  userMetadataTenantId : Option String
  appMetadataTenantId : Option String
deriving DecidableEq, Repr

/-- `MiddlewareService.extractTenantIdFromUser`:
`userMetadata.tenant_id || appMetadata.tenant_id || null`. -/
def MiddlewareService.extractTenantIdFromUser (user : Option AuthUser) : Option String :=
  match user with
  | none => none
  | some u =>
    match truthyOpt u.userMetadataTenantId with
    | some t => some t
    | none => truthyOpt u.appMetadataTenantId

/-- `MiddlewareService.initializeRequestContext`: builds a store from the
request and resolved identity, then calls `RequestContext.run` with an
EMPTY body — so the store is only active inside that empty function. -/
def MiddlewareService.initializeRequestContext (path method : String) (user : AuthUser)
    (tenantId : Option String) (uuid : String) (now : Nat) (st : ContextState) :
    Unit × ContextState :=
  let contextStore : RequestContextStore :=
    { requestId := uuid, requestPath := path, requestMethod := method,
      requestStartTime := now,
      userId := some user.id,
      userEmail := some (user.email.getD ""),
      tenantId := truthyOpt tenantId }
  RequestContext.run contextStore (fun _ => ()) st

/-- The value produced by the `withApiHandler` wrapper: a success JSON
envelope around the handler data, or the error response produced by
`MiddlewareService.handleError` from the normalized `AppError`. -/
inductive ApiResult (α : Type) where
  | success (data : α)
  | errorResponse (e : CustomError)

/-- `MiddlewareService.withApiHandler(handler)`: unconditionally wraps the
handler in `RequestContext.fromRequest` (no `hasContext()` probe), then
wraps the outcome in a success envelope or the error response. -/
def MiddlewareService.withApiHandler {α : Type} (handler : ContextState → Except JsThrow α)
    (req : ReqInfo) (uuid : String) (now : Nat) (st : ContextState) :
    ApiResult α × ContextState :=
  let r := RequestContext.fromRequest req uuid now handler st
  match r.1 with
  | .ok a => (.success a, r.2)
  | .error e => (.errorResponse (toAppError e), r.2)

/-! ## Server-action boundary (BaseAction) -/

/-- The outcome of `supabase.auth.getUser()` as the action boundary sees
it: a possible error flag and a possible user. -/
structure GetUserOutcome where
  user : Option AuthUser
  hasError : Bool
deriving DecidableEq, Repr

/-- `BaseAction.withContext(handler)`. `tenantLookup` is the result of
`getTenantIdFromUser` (metadata fast path, then database fallback that
degrades to `null` instead of throwing); `uuid` and `now` stand for
`crypto.randomUUID()` and `Date.now()`. Dependency-injection bootstrap
(`ensureBootstrap` / `getRepoParams`) has no contextual effect and is not
modelled; the handler receives the active context. -/
def BaseAction.withContext {α : Type} (handler : ContextState → α)
    (auth : GetUserOutcome) (tenantLookup : Option String)
    (uuid : String) (now : Nat) (st : ContextState) : α × ContextState :=
  if RequestContext.hasContext st then
    (handler st, st)
  else
    match (if auth.hasError then none else auth.user) with
    | none =>
      let contextStore : RequestContextStore :=
        { requestId := uuid, requestMethod := "SERVER_ACTION",
          requestPath := "/server-action", requestStartTime := now,
          userId := none, userEmail := none, tenantId := none }
      RequestContext.run contextStore handler st
    | some user =>
      let contextStore : RequestContextStore :=
        { requestId := uuid, requestMethod := "SERVER_ACTION",
          requestPath := "/server-action", requestStartTime := now,
          userId := some user.id,
          userEmail := some (user.email.getD ""),
          tenantId := truthyOpt tenantLookup }
      RequestContext.run contextStore handler st

/-! ## Error-detail redaction (src/core/middleware/error-handler.ts) -/

/-- The `sensitiveKeys` list, verbatim from the source (note that several
entries are camel-cased). -/
def sensitiveKeys : List String :=
  ["password", "token", "secret", "apiKey", "api_key",
   "authorization", "cookie", "session", "ssn", "creditCard",
   "privateKey", "private_key", "connectionString", "connection_string"]

/-- ASCII lower-casing of one character (`toLowerCase()`; all keys and
patterns involved are ASCII). -/
def charToLower (c : Char) : Char :=
  if 65 ≤ c.toNat && c.toNat ≤ 90 then Char.ofNat (c.toNat + 32) else c

/-- The per-key test: `sensitiveKeys.some(s => lowerKey.includes(s))`
where `lowerKey = key.toLowerCase()`. Note the patterns themselves are
NOT lower-cased. -/
def isSensitiveKey (key : String) : Bool :=
  sensitiveKeys.any (fun s => charsContain s.toList (key.toList.map charToLower))

/-- `sanitizeErrorDetails(details)`: a sensitive key maps to the literal
marker; a non-null non-array object value is recursed into; anything else
(including arrays) is copied as-is. -/
def sanitizeErrorDetails : Details → Details
  | [] => []
  | (key, value) :: rest =>
    (if isSensitiveKey key then
      (key, JVal.str "[REDACTED]")
     else
      match value with
      | JVal.obj fields => (key, JVal.obj (sanitizeErrorDetails fields))
      | v => (key, v))
    :: sanitizeErrorDetails rest

/-! ## Vault rows and drizzle conditions (src/db/schema, drizzle-orm)

A `VaultRow` is one row of the `vaults` table. Timestamps are epoch
milliseconds; nullable columns are `Option`s. -/

structure VaultRow where
  id : String
  status : String
  createdBy : Option String
  updatedBy : Option String
  createdAt : Nat
  updatedAt : Nat
  name : String
  description : Option String
  iconUrl : Option String
  color : Option String
  metadata : Option (List (String × String))
  userId : String
  tenantId : String
deriving DecidableEq, Repr

/-- The drizzle condition expressions the vault filters and repository
build over the `vaults` columns (`eq`, `ne`, `gte`, `lte`, `inArray`,
`like` with a `%…%` pattern, and `and`). -/
inductive Cond where
  | eqId (v : String)
  | eqTenantId (v : String)
  | eqCreatedBy (v : String)
  | eqStatus (v : String)
  | neStatus (v : String)
  | geCreatedAt (t : Nat)
  | leCreatedAt (t : Nat)
  | inIds (ids : List String)
  | likeName (pat : String)
  | likeDescription (pat : String)
  | eqColor (v : String)
  | andC (cs : List Cond)

/-- SQL evaluation of a condition against a row. Comparisons against a
NULL column (`description`, `color`) do not match. -/
def condHolds : Cond → VaultRow → Bool
  | .eqId v, r => r.id == v
  | .eqTenantId v, r => r.tenantId == v
  | .eqCreatedBy v, r => r.createdBy == some v
  | .eqStatus v, r => r.status == v
  | .neStatus v, r => r.status != v
  | .geCreatedAt t, r => t ≤ r.createdAt
  | .leCreatedAt t, r => r.createdAt ≤ t
  | .inIds ids, r => ids.contains r.id
  | .likeName pat, r => strContains r.name pat
  | .likeDescription pat, r =>
    match r.description with
    | some d => strContains d pat
    | none => false
  | .eqColor v, r => r.color == some v
  | .andC cs, r => condsHold cs r
where
  condsHold : List Cond → VaultRow → Bool
  | [], _ => true
  | c :: cs, r => condHolds c r && condsHold cs r

/-- `asc` / `desc` (the `SortOrder` enum). -/
inductive SortOrder where
  | asc
  | desc
deriving DecidableEq, Repr

def SortOrder.toJs : SortOrder → String
  | .asc => "asc"
  | .desc => "desc"

/-- The column picked by `applyBaseFilters` for ordering. -/
inductive SortField where
  | createdAtCol
  | nameCol
deriving DecidableEq, Repr

/-- A drizzle select builder over `vaults`. CRITICAL detail of the
library: the builder stores a SINGLE where clause and `.where(...)`
assigns it, so calling `.where` a second time REPLACES the first clause
(drizzle only prevents repeated calls at the type level, and the source
bypasses that with `as typeof query` casts). -/
structure SelectQuery where
  whereClause : Option Cond
  orderField : Option SortField
  orderDir : Option SortOrder
  limitN : Option Int
  offsetN : Option Int

/-- `db.select().from(vaults)`. -/
def SelectQuery.fromVaults : SelectQuery :=
  { whereClause := none, orderField := none, orderDir := none,
    limitN := none, offsetN := none }

/-- `query.where(cond)` — replaces any previously set where clause. -/
def SelectQuery.whereQ (q : SelectQuery) (c : Cond) : SelectQuery :=
  { q with whereClause := some c }

/-- `query.orderBy(direction(field))`. -/
def SelectQuery.orderByQ (q : SelectQuery) (f : SortField) (d : SortOrder) : SelectQuery :=
  { q with orderField := some f, orderDir := some d }

/-- `query.limit(n)`. -/
def SelectQuery.limitQ (q : SelectQuery) (n : Int) : SelectQuery :=
  { q with limitN := some n }

/-- `query.offset(n)`. -/
def SelectQuery.offsetQ (q : SelectQuery) (n : Int) : SelectQuery :=
  { q with offsetN := some n }

/-- Stable insertion of a row into a sorted list, `le` first. -/
def insertRowBy (le : VaultRow → VaultRow → Bool) (x : VaultRow) :
    List VaultRow → List VaultRow
  | [] => [x]
  | y :: ys => if le x y then x :: y :: ys else y :: insertRowBy le x ys

/-- Stable insertion sort. -/
def sortRowsBy (le : VaultRow → VaultRow → Bool) : List VaultRow → List VaultRow
  | [] => []
  | x :: xs => insertRowBy le x (sortRowsBy le xs)

/-- Row comparison for a sort field and direction. -/
def rowLe (f : SortField) (d : SortOrder) (a b : VaultRow) : Bool :=
  match f, d with
  | .createdAtCol, .asc => a.createdAt ≤ b.createdAt
  | .createdAtCol, .desc => b.createdAt ≤ a.createdAt
  | .nameCol, .asc => a.name ≤ b.name
  | .nameCol, .desc => b.name ≤ a.name

/-- Executing a built select against the table contents: filter by the
where clause, order, then `OFFSET`/`LIMIT`. -/
def execSelect (q : SelectQuery) (db : List VaultRow) : List VaultRow :=
  let filtered :=
    match q.whereClause with
    | none => db
    | some c => db.filter (fun r => condHolds c r)
  let sorted :=
    match q.orderField, q.orderDir with
    | some f, some d => sortRowsBy (rowLe f d) filtered
    | _, _ => filtered
  let afterOffset := sorted.drop (q.offsetN.getD 0).toNat
  match q.limitN with
  | none => afterOffset
  | some n => afterOffset.take n.toNat

/-! ## Vault filter (src/domain/filters) -/

/-- `VaultFilter` (the `BaseFilter` fields plus the vault-specific ones).
Numeric fields are JS numbers, kept as `Int`. -/
structure VaultFilter where
  limit : Option Int
  offset : Option Int
  status : Option String
  sort : Option String
  order : Option SortOrder
  startTime : Option Nat
  endTime : Option Nat
  vaultIds : Option (List String)
  nameContains : Option String
  descriptionContains : Option String
  color : Option String
deriving DecidableEq, Repr

def VaultFilter.getLimit (f : VaultFilter) : Int := f.limit.getD 50

def VaultFilter.getOffset (f : VaultFilter) : Int := f.offset.getD 0

def VaultFilter.getStatus (f : VaultFilter) : String := f.status.getD ""

def VaultFilter.getSort (f : VaultFilter) : String := f.sort.getD "created_at"

def VaultFilter.getOrder (f : VaultFilter) : SortOrder := f.order.getD .desc

/-- `isUnlimited(): !this.limit` — true when the limit is unset or 0. -/
def VaultFilter.isUnlimited (f : VaultFilter) : Bool :=
  match f.limit with
  | none => true
  | some n => n == 0

/-- `validate()`: throws plain `Error`s for an out-of-range limit, a
negative offset or an inverted time range. (The order check can never
fire: the enum only holds valid members.) -/
def VaultFilter.validate (f : VaultFilter) : Except JsThrow Unit :=
  if (match f.limit with
      | some n => n != 0 && (n < 1 || n > 1000)
      | none => false) then
    .error (.jsError "Limit must be between 1 and 1000")
  else if (match f.offset with
           | some n => n != 0 && n < 0
           | none => false) then
    .error (.jsError "Offset must be non-negative")
  else if (match f.startTime, f.endTime with
           | some s, some e => decide (e ≤ s)
           | _, _ => false) then
    .error (.jsError "End time must be after start time")
  else
    .ok ()

/-- `buildBaseConditions`: status filter when set, otherwise the default
exclusion of soft-deleted rows; then the created-at range. -/
def VaultFilter.buildBaseConditions (f : VaultFilter) : List Cond :=
  (if f.getStatus != "" then [Cond.eqStatus f.getStatus]
   else [Cond.neStatus "deleted"])
  ++ (match f.startTime with | some t => [Cond.geCreatedAt t] | none => [])
  ++ (match f.endTime with | some t => [Cond.leCreatedAt t] | none => [])

/-- `VaultFilter.buildConditions`: base conditions plus the vault-specific
id / name / description / color filters (each applied only when truthy /
non-empty). -/
def VaultFilter.buildConditions (f : VaultFilter) : List Cond :=
  f.buildBaseConditions
  ++ (match f.vaultIds with
      | some ids => if ids.length > 0 then [Cond.inIds ids] else []
      | none => [])
  ++ (match f.nameContains with
      | some s => if s != "" then [Cond.likeName s] else []
      | none => [])
  ++ (match f.descriptionContains with
      | some s => if s != "" then [Cond.likeDescription s] else []
      | none => [])
  ++ (match f.color with
      | some c => if c != "" then [Cond.eqColor c] else []
      | none => [])

/-- `applyBaseFilters(query)`: re-applies the base conditions with ANOTHER
`.where(...)` call (replacing whatever where clause the query already
had), then ordering, then pagination unless unlimited. -/
def VaultFilter.applyBaseFilters (f : VaultFilter) (q : SelectQuery) : SelectQuery :=
  let conditions := f.buildBaseConditions
  let q := if conditions.length > 0 then q.whereQ (Cond.andC conditions) else q
  let sortField := if f.getSort == "created_at" then SortField.createdAtCol else SortField.nameCol
  let q := q.orderByQ sortField f.getOrder
  if f.isUnlimited then q else (q.limitQ f.getLimit).offsetQ f.getOffset

/-- `VaultFilter.createDefault()`. -/
def VaultFilter.createDefault : VaultFilter :=
  { limit := some 50, offset := some 0, status := none,
    sort := some "created_at", order := some .desc,
    startTime := none, endTime := none, vaultIds := none,
    nameContains := none, descriptionContains := none, color := none }

/-- A quoted JSON string (escaping inside the value is not modelled; no
claim inspects these). -/
def jsonQuote (s : String) : String := "\"" ++ s ++ "\""

/-- `JSON.stringify(filter)`: fields in insertion order, `undefined`
fields omitted; `Date` serialization is approximated by the epoch value. -/
def VaultFilter.stringify (f : VaultFilter) : String :=
  let fields : List (Option (String × String)) :=
    [f.limit.map (fun n => ("limit", toString n)),
     f.offset.map (fun n => ("offset", toString n)),
     f.status.map (fun s => ("status", jsonQuote s)),
     f.sort.map (fun s => ("sort", jsonQuote s)),
     f.order.map (fun o => ("order", jsonQuote o.toJs)),
     f.startTime.map (fun t => ("startTime", toString t)),
     f.endTime.map (fun t => ("endTime", toString t)),
     f.vaultIds.map (fun ids =>
       ("vaultIds", "[" ++ String.intercalate "," (ids.map jsonQuote) ++ "]")),
     f.nameContains.map (fun s => ("nameContains", jsonQuote s)),
     f.descriptionContains.map (fun s => ("descriptionContains", jsonQuote s)),
     f.color.map (fun s => ("color", jsonQuote s))]
  "\x7b" ++
    String.intercalate ","
      ((fields.filterMap id).map (fun kv => jsonQuote kv.1 ++ ":" ++ kv.2)) ++
  "\x7d"

/-! ## Vault entity (src/domain/entities/vault.ts) -/

/-- `VaultEntity` mirrors the row shape (immutable value object). -/
structure VaultEntity where
  id : String
  name : String
  description : Option String
  iconUrl : Option String
  color : Option String
  metadata : Option (List (String × String))
  userId : String
  tenantId : String
  status : String
  createdAt : Nat
  updatedAt : Nat
  createdBy : Option String
  updatedBy : Option String
deriving DecidableEq, Repr

/-- `VaultEntity.fromDB`: field-for-field; `metadata || null` keeps any
object (even empty, objects are truthy) and turns null into null. -/
def VaultEntity.fromDB (v : VaultRow) : VaultEntity :=
  { id := v.id, name := v.name, description := v.description,
    iconUrl := v.iconUrl, color := v.color, metadata := v.metadata,
    userId := v.userId, tenantId := v.tenantId, status := v.status,
    createdAt := v.createdAt, updatedAt := v.updatedAt,
    createdBy := v.createdBy, updatedBy := v.updatedBy }

/-- `toVaultDB()`: field-for-field; `metadata || {}` replaces null with an
empty object. -/
def VaultEntity.toVaultDB (e : VaultEntity) : VaultRow :=
  { id := e.id, name := e.name, description := e.description,
    iconUrl := e.iconUrl, color := e.color,
    metadata := some (e.metadata.getD []),
    userId := e.userId, tenantId := e.tenantId, status := e.status,
    createdAt := e.createdAt, updatedAt := e.updatedAt,
    createdBy := e.createdBy, updatedBy := e.updatedBy }

/-! ## Vault repository (src/domain/repository/vault.ts)

Methods take the active context and the current table contents
explicitly; writes return the updated table alongside the result. A
resolved promise is `Except.ok { data, error := none }`; a rejected one is
`Except.error appError`. Driver-level failures (connectivity, constraint
violations) are external and not modelled as occurring. -/

/-- The `{ data, error }` result value of a repository method. -/
structure RepoResult (α : Type) where
  data : α
  error : Option CustomError

/-- `getTenantIdFromContext()`: the strict context getter, with any
context failure converted into a thrown Unauthorized error. -/
def VaultRepositoryImpl.getTenantIdFromContext (ctx : ContextState) :
    Except JsThrow String :=
  match RequestContext.getTenantId ctx with
  | .ok tenantId => .ok tenantId
  | .error _ =>
    .error (.app ((Err.unauthorized "Tenant ID is required for vault operations").build))

/-- `getTenantCondition()`. -/
def VaultRepositoryImpl.getTenantCondition (ctx : ContextState) : Except JsThrow Cond :=
  match VaultRepositoryImpl.getTenantIdFromContext ctx with
  | .ok tenantId => .ok (Cond.eqTenantId tenantId)
  | .error e => .error e

/-- `tryGetUserIdFromContext()`: strict getter demoted to `null` on any
failure. -/
def VaultRepositoryImpl.tryGetUserIdFromContext (ctx : ContextState) : Option String :=
  match RequestContext.getUserId ctx with
  | .ok userId => some userId
  | .error _ => none

/-- `getUserCondition()`: `eq(vaults.createdBy, userId)` when a (truthy)
user id is in context. -/
def VaultRepositoryImpl.getUserCondition (ctx : ContextState) : Option Cond :=
  match VaultRepositoryImpl.tryGetUserIdFromContext ctx with
  | none => none
  | some userId => if userId = "" then none else some (Cond.eqCreatedBy userId)

/-- `create(vault)`: insert + returning; no scoping read from context. -/
def VaultRepositoryImpl.create (db : List VaultRow) (vault : VaultEntity) :
    List VaultRow × Except CustomError (RepoResult VaultEntity) :=
  let row := vault.toVaultDB
  (db ++ [row],
   withErrorHandling (tryCatch
     (.ok { data := VaultEntity.fromDB row, error := none })
     (fun e =>
       .app (((Err.database "Failed to create vault" (some (throwMessage e))).withDetails
         [("vaultId", JVal.str vault.id), ("name", JVal.str vault.name)]).build))))

/-- `findById(id)`: one `.where(and(eq(id), eq(tenantId), [createdBy]))`;
any failure in the body (including the Unauthorized thrown by the tenant
helper) is caught and re-thrown as a database error. -/
def VaultRepositoryImpl.findById (ctx : ContextState) (db : List VaultRow) (id : String) :
    Except CustomError (RepoResult (Option VaultEntity)) :=
  withErrorHandling (tryCatch
    (match VaultRepositoryImpl.getTenantIdFromContext ctx with
     | .error e => .error e
     | .ok tenantId =>
       let conditions := [Cond.eqId id, Cond.eqTenantId tenantId]
       let conditions :=
         match VaultRepositoryImpl.getUserCondition ctx with
         | some userCondition => conditions ++ [userCondition]
         | none => conditions
       let result :=
         (execSelect (SelectQuery.fromVaults.whereQ (Cond.andC conditions)) db).head?
       .ok { data := result.map VaultEntity.fromDB, error := none })
    (fun e =>
      .app (((Err.database "Failed to find vault by ID" (some (throwMessage e))).withDetails
        [("vaultId", JVal.str id)]).build)))

/-- `findAll(filter)`: builds `filter` conditions plus the mandatory
tenant (and optional creator) condition into one `.where`, then calls
`filter.applyBaseFilters`, whose second `.where` call replaces that
clause before the query executes. -/
def VaultRepositoryImpl.findAll (ctx : ContextState) (db : List VaultRow)
    (filter : VaultFilter) : Except CustomError (RepoResult (List VaultEntity)) :=
  withErrorHandling (tryCatch
    (match filter.validate with
     | .error e => .error e
     | .ok _ =>
       let conditions := filter.buildConditions
       match VaultRepositoryImpl.getTenantCondition ctx with
       | .error e => .error e
       | .ok tenantCondition =>
         let allConditions := conditions ++ [tenantCondition]
         let allConditions :=
           match VaultRepositoryImpl.getUserCondition ctx with
           | some userCondition => allConditions ++ [userCondition]
           | none => allConditions
         let query := SelectQuery.fromVaults
         let query := query.whereQ (Cond.andC allConditions)
         let query := filter.applyBaseFilters query
         let results := execSelect query db
         .ok { data := results.map VaultEntity.fromDB, error := none })
    (fun e =>
      .app (((Err.database "Failed to find all vaults" (some (throwMessage e))).withDetails
        [("filter", JVal.str filter.stringify)]).build)))

/-- `count(filter)`: a single `.where(and(filter ++ tenant ++ creator))`,
no `applyBaseFilters`, result is the row count. -/
def VaultRepositoryImpl.count (ctx : ContextState) (db : List VaultRow)
    (filter : VaultFilter) : Except CustomError (RepoResult Nat) :=
  withErrorHandling (tryCatch
    (match filter.validate with
     | .error e => .error e
     | .ok _ =>
       let conditions := filter.buildConditions
       match VaultRepositoryImpl.getTenantCondition ctx with
       | .error e => .error e
       | .ok tenantCondition =>
         let allConditions := conditions ++ [tenantCondition]
         let allConditions :=
           match VaultRepositoryImpl.getUserCondition ctx with
           | some userCondition => allConditions ++ [userCondition]
           | none => allConditions
         let query := SelectQuery.fromVaults.whereQ (Cond.andC allConditions)
         .ok { data := (execSelect query db).length, error := none })
    (fun e =>
      .app (((Err.database "Failed to count vaults" (some (throwMessage e))).withDetails
        [("filter", JVal.str filter.stringify)]).build)))

/-- `update(vault)`: checks `vault.tenantId` against the context tenant
BEFORE any write (the Forbidden thrown on mismatch is, however, re-caught
by the same method and re-thrown as a database error); the write itself is
scoped by id AND tenant; `returning()` on an empty match leaves `updated`
undefined and `VaultEntity.fromDB(undefined)` throws. -/
def VaultRepositoryImpl.update (ctx : ContextState) (db : List VaultRow)
    (vault : VaultEntity) :
    List VaultRow × Except CustomError (RepoResult VaultEntity) :=
  let body : List VaultRow × Except JsThrow (RepoResult VaultEntity) :=
    match VaultRepositoryImpl.getTenantIdFromContext ctx with
    | .error e => (db, .error e)
    | .ok tenantId =>
      if vault.tenantId != tenantId then
        (db, .error (.app (((Err.forbidden "Vault does not belong to the current tenant").withDetails
          [("vaultId", JVal.str vault.id),
           ("vaultTenantId", JVal.str vault.tenantId),
           ("currentTenantId", JVal.str tenantId)]).build)))
      else
        let cond := Cond.andC [Cond.eqId vault.id, Cond.eqTenantId tenantId]
        let newRow := vault.toVaultDB
        let db2 := db.map (fun r => if condHolds cond r then newRow else r)
        if db.any (fun r => condHolds cond r) then
          (db2, .ok { data := VaultEntity.fromDB newRow, error := none })
        else
          (db2, .error (.jsError "Cannot read properties of undefined"))
  (body.1,
   withErrorHandling (tryCatch body.2
     (fun e =>
       .app (((Err.database "Failed to update vault" (some (throwMessage e))).withDetails
         [("vaultId", JVal.str vault.id)]).build))))

/-- `delete(id)`: soft delete — set `status = "deleted"` on rows matching
id AND the context tenant; resolves with void data. -/
def VaultRepositoryImpl.delete (ctx : ContextState) (db : List VaultRow) (id : String) :
    List VaultRow × Except CustomError (RepoResult Unit) :=
  match VaultRepositoryImpl.getTenantIdFromContext ctx with
  | .error e =>
    (db,
     withErrorHandling (tryCatch (.error e)
       (fun e2 =>
         .app (((Err.database "Failed to delete vault" (some (throwMessage e2))).withDetails
           [("vaultId", JVal.str id)]).build))))
  | .ok tenantId =>
    let cond := Cond.andC [Cond.eqId id, Cond.eqTenantId tenantId]
    (db.map (fun r => if condHolds cond r then { r with status := "deleted" } else r),
     .ok { data := (), error := none })

/-! ## Concrete fixtures used by the claim theorems -/

/-- A context whose active tenant is `tenant_A` (no user id bound). -/
def ctxStoreA : RequestContextStore :=
  { requestId := "req-1", requestPath := "/api/v1/vaults", requestMethod := "GET",
    requestStartTime := 0, userId := none, userEmail := none,
    tenantId := some "tenant_A" }

def ctxA : ContextState := some ctxStoreA

/-- A vault owned by `tenant_B`. -/
def vaultRowB : VaultRow :=
  { id := "vault_1", status := "published", createdBy := some "user_B",
    updatedBy := none, createdAt := 10, updatedAt := 10, name := "B secrets",
    description := none, iconUrl := none, color := none, metadata := none,
    userId := "user_B", tenantId := "tenant_B" }

/-- A vault owned by `tenant_A`. -/
def vaultRowA : VaultRow :=
  { id := "vault_1", status := "published", createdBy := some "user_A",
    updatedBy := none, createdAt := 10, updatedAt := 10, name := "A secrets",
    description := none, iconUrl := none, color := none, metadata := none,
    userId := "user_A", tenantId := "tenant_A" }

/-- A request carrying tenant-B identity headers (as set by an upstream
authentication step). -/
def reqB : ReqInfo :=
  { path := "/api/v1/vaults", method := "GET",
    userIdHeader := some "user_B", userEmailHeader := some "b@example.com",
    tenantIdHeader := some "tenant_B" }

/-- A handler that simply reports the context it observes as active. -/
def observeCtx : ContextState → Except JsThrow ContextState :=
  fun st => .ok st

/-! ## Helper lemmas -/

/-- An `ok` outcome of a repository method wrapped in
`withErrorHandling (tryCatch ...)` comes unchanged from the body. -/
theorem wrapped_ok_error_none {α : Type} (body : Except JsThrow (RepoResult α))
    (handler : JsThrow → JsThrow)
    (hbody : ∀ x, body = .ok x → x.error = none)
    (r : RepoResult α) :
    withErrorHandling (tryCatch body handler) = .ok r → r.error = none := by
  cases body with
  | ok a =>
    intro h
    have ha : a = r := by simpa [withErrorHandling, tryCatch] using h
    exact ha ▸ hbody a rfl
  | error e =>
    intro h
    simp [withErrorHandling, tryCatch] at h

/-- The id-and-tenant conjunction used by `delete` (and by `findById`
when no user id is in context), in terms of row projections. -/
theorem condHolds_idTenant (id t : String) (r : VaultRow) :
    condHolds (Cond.andC [Cond.eqId id, Cond.eqTenantId t]) r
      = ((r.id == id) && (r.tenantId == t)) := by
  simp [condHolds, condHolds.condsHold]

/-- After soft-deleting the unique row with the given id (scoped by
tenant), selecting by the same id-and-tenant condition finds exactly the
marked row first. -/
theorem softDelete_select_head (id t : String) (v : VaultRow)
    (hId : v.id = id) (hVT : v.tenantId = t) :
    ∀ db : List VaultRow, v ∈ db → (∀ r ∈ db, r.id = id → r = v) →
      ((db.map (fun r =>
          if condHolds (Cond.andC [Cond.eqId id, Cond.eqTenantId t]) r
          then { r with status := "deleted" } else r)).filter
        (fun r => condHolds (Cond.andC [Cond.eqId id, Cond.eqTenantId t]) r)).head?
        = some { v with status := "deleted" } := by
  intro db
  induction db with
  | nil => intro h _; cases h
  | cons a rest ih =>
    intro hMem hUniq
    by_cases hc : condHolds (Cond.andC [Cond.eqId id, Cond.eqTenantId t]) a = true
    · have hc2 := hc
      rw [condHolds_idTenant] at hc2
      simp only [Bool.and_eq_true, beq_iff_eq] at hc2
      have hav : a = v := hUniq a (List.mem_cons_self a rest) hc2.1
      subst hav
      have hcm : condHolds (Cond.andC [Cond.eqId id, Cond.eqTenantId t])
          { a with status := "deleted" } = true := by
        rw [condHolds_idTenant]
        simp [hc2.1, hc2.2]
      simp [hc, hcm]
    · have hne : a ≠ v := by
        intro he
        apply hc
        rw [condHolds_idTenant, he]
        simp [hId, hVT]
      have hMem2 : v ∈ rest := by
        cases hMem with
        | head => exact absurd rfl hne
        | tail _ h => exact h
      have hUniq2 : ∀ r ∈ rest, r.id = id → r = v :=
        fun r hr h3 => hUniq r (List.mem_cons_of_mem _ hr) h3
      simp only [List.map_cons, List.filter_cons, hc, Bool.false_eq_true,
        if_false, ite_false]
      exact ih hMem2 hUniq2

/-! ## Claim theorems -/

/-- C8: error kind stability and taxonomy mapping.
`Err.notFound("Vault","id123").build()` yields code `NOT_FOUND`, status
404 and a message containing `id123`; and every error built through the
`Err` factory carries the wire status of its kind: validation 400,
unauthorized 401, forbidden 403, not-found 404, conflict 409, database
500, internal 500 (the factory exposes no rate-limit constructor, so the
rate-limit row of the taxonomy is not exercised by factory-built
errors). -/
theorem c8_error_kind_stability :
    ((Err.notFound "Vault" (some "id123")).build.code = ErrorCode.NOT_FOUND
      ∧ (Err.notFound "Vault" (some "id123")).build.statusCode = 404
      ∧ strContains (Err.notFound "Vault" (some "id123")).build.displayMessage "id123" = true)
    ∧ (∀ (m : String) (d : Option Details),
        (Err.validation m d).build.code = ErrorCode.VALIDATION_ERROR
        ∧ (Err.validation m d).build.statusCode = 400)
    ∧ (∀ m : String,
        (Err.unauthorized m).build.code = ErrorCode.UNAUTHORIZED
        ∧ (Err.unauthorized m).build.statusCode = 401)
    ∧ (∀ m : String,
        (Err.forbidden m).build.code = ErrorCode.FORBIDDEN
        ∧ (Err.forbidden m).build.statusCode = 403)
    ∧ (∀ (resource : String) (i : Option String),
        (Err.notFound resource i).build.code = ErrorCode.NOT_FOUND
        ∧ (Err.notFound resource i).build.statusCode = 404)
    ∧ (∀ (m : String) (d : Option Details),
        (Err.conflict m d).build.code = ErrorCode.CONFLICT
        ∧ (Err.conflict m d).build.statusCode = 409)
    ∧ (∀ (m : String) (c : Option String),
        (Err.database m c).build.code = ErrorCode.DATABASE_ERROR
        ∧ (Err.database m c).build.statusCode = 500)
    ∧ (∀ (m : String) (c : Option String),
        (Err.internal m c).build.code = ErrorCode.INTERNAL_ERROR
        ∧ (Err.internal m c).build.statusCode = 500) :=
  ⟨⟨rfl, rfl, by decide⟩,
   fun _ _ => ⟨rfl, rfl⟩,
   fun _ => ⟨rfl, rfl⟩,
   fun _ => ⟨rfl, rfl⟩,
   fun _ _ => ⟨rfl, rfl⟩,
   fun _ _ => ⟨rfl, rfl⟩,
   fun _ _ => ⟨rfl, rfl⟩,
   fun _ _ => ⟨rfl, rfl⟩⟩

/-- C9: with no active context, the strict getter `getUserId()` fails
with `NoContextError` (raised by `getContext()` with its default message)
while the tolerant `tryGetUserId()` returns the absent marker and cannot
throw (its type is a plain `Option`). -/
theorem c9_strict_vs_tolerant_getters :
    RequestContext.getUserId none =
      .error (.noContext "No context available")
    ∧ RequestContext.tryGetUserId none = none :=
  ⟨rfl, rfl⟩

/-- C10: `RequestContext.run` scopes the store to the body — the body
observes the given store, and the previously active context (possibly
none) is active again after the call. In particular
`MiddlewareService.initializeRequestContext` runs an EMPTY body, so it
leaves the ambient context exactly as it was (`hasContext()` stays false
at top level), and a route handler's context comes solely from the
handler-level `RequestContext.fromRequest` wrapper, whose body observes
the store built from the request headers. -/
theorem c10_run_scoping :
    (∀ (α : Type) (s : RequestContextStore) (fn : ContextState → α) (st : ContextState),
      RequestContext.run s fn st = (fn (some s), st))
    ∧ (∀ (path method : String) (user : AuthUser) (tenantId : Option String)
        (uuid : String) (now : Nat) (st : ContextState),
      MiddlewareService.initializeRequestContext path method user tenantId uuid now st
        = ((), st))
    ∧ (∀ (path method : String) (user : AuthUser) (tenantId : Option String)
        (uuid : String) (now : Nat),
      RequestContext.hasContext
        (MiddlewareService.initializeRequestContext path method user tenantId uuid now none).2
        = false)
    ∧ (∀ (α : Type) (req : ReqInfo) (uuid : String) (now : Nat)
        (fn : ContextState → α) (st : ContextState),
      RequestContext.fromRequest req uuid now fn st
        = (fn (some (RequestContext.fromRequestStore req uuid now)), st)) :=
  ⟨fun _ _ _ _ => rfl,
   fun _ _ _ _ _ _ _ => rfl,
   fun _ _ _ _ _ _ => rfl,
   fun _ _ _ _ _ _ => rfl⟩

/-- C2 (code bug): with no tenant id in context, `findById` does build an
Unauthorized error in `getTenantIdFromContext`, but that error is thrown
inside the method's own try block, whose catch re-wraps EVERY failure as
`Err.database("Failed to find vault by ID", ...)`. The call therefore
rejects with code `DATABASE_ERROR` and wire status 500, not
`UNAUTHORIZED`/401 as the claim states. -/
theorem c2_findById_noContext_eval :
    VaultRepositoryImpl.findById none [] "vault_1" =
      .error { code := .DATABASE_ERROR, statusCode := 500,
               displayMessage := "Failed to find vault by ID",
               internalError := none,
               details := some [("vaultId", JVal.str "vault_1")] }
    ∧ ErrorCode.DATABASE_ERROR ≠ ErrorCode.UNAUTHORIZED
    ∧ STATUS_CODES ErrorCode.UNAUTHORIZED = 401 :=
  ⟨rfl, by decide, rfl⟩

/-- C3 (code bug): `update` checks the tenant before writing and performs
no write on mismatch (the returned table is unchanged), but the Forbidden
error it throws is re-caught by the method's own catch and re-thrown as
`Err.database("Failed to update vault", ...)`: the call rejects with
`DATABASE_ERROR`/500, not `FORBIDDEN`/403. -/
theorem c3_update_tenantMismatch_eval :
    VaultRepositoryImpl.update ctxA [vaultRowB] (VaultEntity.fromDB vaultRowB) =
      ([vaultRowB],
       .error { code := .DATABASE_ERROR, statusCode := 500,
                displayMessage := "Failed to update vault",
                internalError := none,
                details := some [("vaultId", JVal.str "vault_1")] })
    ∧ ErrorCode.DATABASE_ERROR ≠ ErrorCode.FORBIDDEN
    ∧ STATUS_CODES ErrorCode.FORBIDDEN = 403 :=
  ⟨rfl, by decide, rfl⟩

/-- C1 (code bug): with context tenant `tenant_A` and a single stored
vault belonging to `tenant_B`, `findById` and `count` are correctly
tenant-scoped (absent / zero), but `findAll` RETURNS the cross-tenant
vault: the tenant condition is passed to one `.where(...)` call and then
`filter.applyBaseFilters` issues a second `.where(...)` that replaces it
(drizzle keeps a single where clause), so the executed query filters only
on the default status condition. -/
theorem c1_findAll_crossTenant_leak_eval :
    RequestContext.tryGetTenantId ctxA = some "tenant_A"
    ∧ vaultRowB.tenantId = "tenant_B"
    ∧ VaultRepositoryImpl.findAll ctxA [vaultRowB] VaultFilter.createDefault =
        .ok { data := [VaultEntity.fromDB vaultRowB], error := none }
    ∧ VaultRepositoryImpl.findById ctxA [vaultRowB] "vault_1" =
        .ok { data := none, error := none }
    ∧ VaultRepositoryImpl.count ctxA [vaultRowB] VaultFilter.createDefault =
        .ok { data := 0, error := none } :=
  ⟨rfl, rfl, rfl, rfl, rfl⟩

/-- C7 (code bug): the sanitizer compares the LOWER-CASED key against the
raw entries of `sensitiveKeys`, so the camel-cased entries (`apiKey`,
`creditCard`, `privateKey`, `connectionString`) can never match: a
details object with key `apiKey` keeps its original value verbatim
instead of being replaced by the redaction marker (all-lowercase patterns
such as `password` do work, shown for contrast). -/
theorem c7_redaction_apiKey_eval :
    sanitizeErrorDetails [("apiKey", JVal.str "sk-live-1234")] =
      [("apiKey", JVal.str "sk-live-1234")]
    ∧ sanitizeErrorDetails [("Password", JVal.str "p")] =
      [("Password", JVal.str "[REDACTED]")] := by
  have h1 : isSensitiveKey "apiKey" = false := by decide
  have h2 : isSensitiveKey "Password" = true := by decide
  exact ⟨by simp [sanitizeErrorDetails, h1], by simp [sanitizeErrorDetails, h2]⟩

/-- C6 (counterexample): with a context already active (`ctxA`), the
API-route boundary `MiddlewareService.withApiHandler` does NOT skip
re-initialization: its handler observes the freshly built store from the
request headers, which differs from the previously active context (new
request id, different identity bindings). -/
theorem c6_boundary_counterexample :
    (MiddlewareService.withApiHandler observeCtx reqB "req-2" 5 ctxA).1
      = .success (some (RequestContext.fromRequestStore reqB "req-2" 5))
    ∧ RequestContext.fromRequestStore reqB "req-2" 5 ≠ ctxStoreA :=
  ⟨rfl, by decide⟩

/-- C6 (amended): only the server-action boundary is idempotent —
`BaseAction.withContext` detects an active context via `hasContext()` and
runs the handler under that identical context without nesting; the
API-route boundary `MiddlewareService.withApiHandler` performs no such
check and always re-initializes through `RequestContext.fromRequest`, so
its handler observes a fresh store built from the request headers (new
request id) regardless of any previously active context, which is
restored afterwards. -/
theorem c6_boundary_amended :
    (∀ (α : Type) (handler : ContextState → α) (auth : GetUserOutcome)
        (tenantLookup : Option String) (uuid : String) (now : Nat) (st : ContextState),
      RequestContext.hasContext st = true →
      BaseAction.withContext handler auth tenantLookup uuid now st = (handler st, st))
    ∧ (∀ (req : ReqInfo) (uuid : String) (now : Nat) (st : ContextState),
      MiddlewareService.withApiHandler observeCtx req uuid now st
        = (.success (some (RequestContext.fromRequestStore req uuid now)), st)) := by
  constructor
  · intro α handler auth tenantLookup uuid now st h
    simp [BaseAction.withContext, h]
  · intro req uuid now st
    rfl

/-- C6 (witness): the idempotence half of the amended claim applied at a
concrete active context. -/
theorem c6_boundary_amended_witness :
    RequestContext.hasContext ctxA = true
    ∧ BaseAction.withContext (fun st => st) { user := none, hasError := false }
        none "req-9" 7 ctxA = (ctxA, ctxA) :=
  ⟨rfl,
   c6_boundary_amended.1 ContextState (fun st => st)
     { user := none, hasError := false } none "req-9" 7 ctxA rfl⟩

/-- C5 (counterexample): not every failure is delivered in the returned
`{ data, error }` value — with no active context, `findById` does not
resolve with a populated error channel at all; the normalized error is
thrown (the promise rejects). -/
theorem c5_twoChannel_counterexample :
    ¬ ∃ r : RepoResult (Option VaultEntity),
        VaultRepositoryImpl.findById none [] "vault_1" = .ok r := by
  rintro ⟨r, h⟩
  have he : VaultRepositoryImpl.findById none [] "vault_1" =
      .error { code := .DATABASE_ERROR, statusCode := 500,
               displayMessage := "Failed to find vault by ID",
               internalError := none,
               details := some [("vaultId", JVal.str "vault_1")] } := rfl
  rw [he] at h
  exact Except.noConfusion h

/-- C5 (amended): repository methods resolve only with `error: null` —
the error channel of the returned `{ data, error }` value is never
populated; every failure is instead normalized to a typed `AppError` by
`withErrorHandling` and raised past the repository boundary as a
rejection (shown at a concrete input in the last conjunct). -/
theorem c5_twoChannel_amended :
    (∀ (ctx : ContextState) (db : List VaultRow) (id : String)
        (r : RepoResult (Option VaultEntity)),
      VaultRepositoryImpl.findById ctx db id = .ok r → r.error = none)
    ∧ (∀ (ctx : ContextState) (db : List VaultRow) (filter : VaultFilter)
        (r : RepoResult (List VaultEntity)),
      VaultRepositoryImpl.findAll ctx db filter = .ok r → r.error = none)
    ∧ (∀ (ctx : ContextState) (db : List VaultRow) (filter : VaultFilter)
        (r : RepoResult Nat),
      VaultRepositoryImpl.count ctx db filter = .ok r → r.error = none)
    ∧ (∀ (db : List VaultRow) (v : VaultEntity) (r : RepoResult VaultEntity),
      (VaultRepositoryImpl.create db v).2 = .ok r → r.error = none)
    ∧ (∀ (ctx : ContextState) (db : List VaultRow) (v : VaultEntity)
        (r : RepoResult VaultEntity),
      (VaultRepositoryImpl.update ctx db v).2 = .ok r → r.error = none)
    ∧ (∀ (ctx : ContextState) (db : List VaultRow) (id : String)
        (r : RepoResult Unit),
      (VaultRepositoryImpl.delete ctx db id).2 = .ok r → r.error = none)
    ∧ VaultRepositoryImpl.findById none [] "vault_1" =
        .error { code := .DATABASE_ERROR, statusCode := 500,
                 displayMessage := "Failed to find vault by ID",
                 internalError := none,
                 details := some [("vaultId", JVal.str "vault_1")] } := by
  refine ⟨?_, ?_, ?_, ?_, ?_, ?_, rfl⟩
  · intro ctx db id r
    unfold VaultRepositoryImpl.findById
    refine wrapped_ok_error_none _ _ ?_ r
    intro x hx
    split at hx
    · exact Except.noConfusion hx
    · injection hx with h2
      rw [← h2]
  · intro ctx db filter r
    unfold VaultRepositoryImpl.findAll
    refine wrapped_ok_error_none _ _ ?_ r
    intro x hx
    split at hx
    · exact Except.noConfusion hx
    · split at hx
      · exact Except.noConfusion hx
      · injection hx with h2
        rw [← h2]
  · intro ctx db filter r
    unfold VaultRepositoryImpl.count
    refine wrapped_ok_error_none _ _ ?_ r
    intro x hx
    split at hx
    · exact Except.noConfusion hx
    · split at hx
      · exact Except.noConfusion hx
      · injection hx with h2
        rw [← h2]
  · intro db v r
    intro h
    have h2 : ({ data := VaultEntity.fromDB v.toVaultDB, error := none } : RepoResult VaultEntity) = r := by
      simpa [VaultRepositoryImpl.create, withErrorHandling, tryCatch] using h
    rw [← h2]
  · intro ctx db v r
    cases hg : VaultRepositoryImpl.getTenantIdFromContext ctx with
    | error e =>
      simp [VaultRepositoryImpl.update, hg, withErrorHandling, tryCatch]
    | ok t =>
      by_cases hv : (v.tenantId != t) = true
      · simp [VaultRepositoryImpl.update, hg, hv, withErrorHandling, tryCatch]
      · by_cases ha :
          (db.any fun r2 => condHolds (Cond.andC [Cond.eqId v.id, Cond.eqTenantId t]) r2) = true
        · simp only [VaultRepositoryImpl.update, hg, hv, ha, Bool.not_eq_true,
            withErrorHandling, tryCatch, if_true, if_false]
          intro h
          have h2 : ({ data := VaultEntity.fromDB v.toVaultDB, error := none } :
              RepoResult VaultEntity) = r := by
            simpa using h
          rw [← h2]
        · simp [VaultRepositoryImpl.update, hg, hv, ha, withErrorHandling, tryCatch]
  · intro ctx db id r
    cases hg : VaultRepositoryImpl.getTenantIdFromContext ctx with
    | error e =>
      simp [VaultRepositoryImpl.delete, hg, withErrorHandling, tryCatch]
    | ok t =>
      simp only [VaultRepositoryImpl.delete, hg]
      intro h
      have h2 : ({ data := (), error := none } : RepoResult Unit) = r := by
        simpa using h
      rw [← h2]

/-- C5 (witness): the `findById` conjunct of the amended claim applied at
a concrete successful call. -/
theorem c5_twoChannel_amended_witness :
    VaultRepositoryImpl.findById ctxA [] "vault_1" = .ok { data := none, error := none }
    ∧ ({ data := none, error := none } : RepoResult (Option VaultEntity)).error = none :=
  ⟨rfl, c5_twoChannel_amended.1 ctxA [] "vault_1" { data := none, error := none } rfl⟩

/-- C4 (counterexample): after a successful tenant-scoped soft delete the
row is stored with status `deleted`, but a subsequent `findById` does NOT
return null — `findById` applies no status condition, so it returns the
soft-deleted row. -/
theorem c4_softDelete_findById_counterexample :
    VaultRepositoryImpl.delete ctxA [vaultRowA] "vault_1" =
      ([{ vaultRowA with status := "deleted" }], .ok { data := (), error := none })
    ∧ VaultRepositoryImpl.findById ctxA [{ vaultRowA with status := "deleted" }] "vault_1" =
      .ok { data := some (VaultEntity.fromDB { vaultRowA with status := "deleted" }),
            error := none }
    ∧ some (VaultEntity.fromDB { vaultRowA with status := "deleted" })
        ≠ (none : Option VaultEntity) :=
  ⟨rfl, rfl, by simp⟩

/-- C4 (amended): for a vault id whose unique row belongs to the active
tenant (and with no user id bound in context), `delete(id)` succeeds and
the row still exists in storage with status `deleted`; `findAll`/`count`
with the default filter exclude it, but `findById(id)` applies no status
condition and returns the soft-deleted row (data is the marked entity,
not null). -/
theorem c4_softDelete_roundTrip_amended
    (st : RequestContextStore) (db : List VaultRow) (id t : String) (v : VaultRow)
    (hTen : st.tenantId = some t) (hT : ¬ t = "")
    (hUser : st.userId = none)
    (hMem : v ∈ db) (hId : v.id = id) (hVT : v.tenantId = t)
    (hUniq : ∀ r ∈ db, r.id = id → r = v) :
    (VaultRepositoryImpl.delete (some st) db id).2 = .ok { data := (), error := none }
    ∧ { v with status := "deleted" } ∈ (VaultRepositoryImpl.delete (some st) db id).1
    ∧ VaultRepositoryImpl.findById (some st) (VaultRepositoryImpl.delete (some st) db id).1 id
        = .ok { data := some (VaultEntity.fromDB { v with status := "deleted" }),
                error := none } := by
  have hten : VaultRepositoryImpl.getTenantIdFromContext (some st) = .ok t := by
    simp [VaultRepositoryImpl.getTenantIdFromContext, RequestContext.getTenantId,
      RequestContext.getKey, hTen, hT]
  have huser : VaultRepositoryImpl.getUserCondition (some st) = none := by
    simp [VaultRepositoryImpl.getUserCondition, VaultRepositoryImpl.tryGetUserIdFromContext,
      RequestContext.getUserId, RequestContext.getKey, hUser]
  have hdel : VaultRepositoryImpl.delete (some st) db id
      = (db.map (fun r =>
          if condHolds (Cond.andC [Cond.eqId id, Cond.eqTenantId t]) r
          then { r with status := "deleted" } else r),
         .ok { data := (), error := none }) := by
    simp [VaultRepositoryImpl.delete, hten]
  have hhead := softDelete_select_head id t v hId hVT db hMem hUniq
  refine ⟨by rw [hdel], ?_, ?_⟩
  · rw [hdel]
    exact List.mem_map.mpr ⟨v, hMem, by simp [condHolds_idTenant, hId, hVT]⟩
  · rw [hdel]
    simp [VaultRepositoryImpl.findById, hten, huser, withErrorHandling, tryCatch,
      execSelect, SelectQuery.fromVaults, SelectQuery.whereQ, hhead]

/-- C4 (witness): the amended round trip at a concrete tenant-A vault. -/
theorem c4_softDelete_roundTrip_amended_witness :
    (VaultRepositoryImpl.delete (some ctxStoreA) [vaultRowA] "vault_1").2 =
      .ok { data := (), error := none }
    ∧ { vaultRowA with status := "deleted" }
        ∈ (VaultRepositoryImpl.delete (some ctxStoreA) [vaultRowA] "vault_1").1
    ∧ VaultRepositoryImpl.findById (some ctxStoreA)
        (VaultRepositoryImpl.delete (some ctxStoreA) [vaultRowA] "vault_1").1 "vault_1"
        = .ok { data := some (VaultEntity.fromDB { vaultRowA with status := "deleted" }),
                error := none } :=
  c4_softDelete_roundTrip_amended ctxStoreA [vaultRowA] "vault_1" "tenant_A" vaultRowA
    rfl (by decide) rfl (List.mem_singleton.mpr rfl) rfl rfl
    (fun r hr _ => List.mem_singleton.mp hr)

end Cyvault
